import Mathlib

/-!
Verification development for the pw-autopaused daemon (Go sources).

The definitions below are a shallow embedding of the transition-detection
revision of the daemon (the Go file carrying `currentDefaultSink` and the
`default.audio.sink` / `default.configured.audio.sink` state machine),
together with the pure route-classification helpers shared by both Go
revisions.  Go maps are modelled as association lists with Go's
replace-on-write semantics; Go strings are Lean strings; Go `int` is `Int`.
External JSON decoding (`encoding/json`) is modelled by `Option`-valued
decode results and, for metadata values, by an inductive that records the
outcome of the dynamic type switch the source performs on the decoded
`interface` value.
-/

namespace PwAutopaused

/-- Character-wise ASCII lower-casing of a string, modelling `strings.ToLower`
on the ASCII port-type and direction strings the daemon compares.  (Go's
`strings.ToLower` additionally folds non-ASCII letters; every string the
source compares against is ASCII.) -/
def goToLower (s : String) : String :=
  ⟨s.data.map Char.toLower⟩

/-- Case-insensitive string equality, modelling `strings.EqualFold` (ASCII
simple fold; the source only ever folds the literal "output"). -/
def eqFold (s t : String) : Bool :=
  s.data.map Char.toLower == t.data.map Char.toLower

/-- Whether the list `needle` occurs at the head of `hay`. -/
def startsWithL : List Char → List Char → Bool
  | [], _ => true
  | _ :: _, [] => false
  | a :: as, b :: bs => a == b && startsWithL as bs

/-- Whether the list `needle` occurs contiguously anywhere in `hay`. -/
def hasSubL (needle : List Char) : List Char → Bool
  | [] => needle.isEmpty
  | c :: rest => startsWithL needle (c :: rest) || hasSubL needle rest

/-- Substring containment, modelling `strings.Contains s sub`. -/
def containsSub (s sub : String) : Bool :=
  hasSubL sub.data s.data

/-- Strip all leading and trailing double-quote characters, modelling
`strings.Trim(v, "\"")` from the metadata-value fallback. -/
def trimQuotes (s : String) : String :=
  ⟨((s.data.dropWhile (fun c => c == '"')).reverse.dropWhile
      (fun c => c == '"')).reverse⟩

/-- Lookup in an association list modelling a Go map: the value bound to the
first (hence, given `alistSet`, the only) occurrence of the key. -/
def alistGet {κ α : Type} [DecidableEq κ] (m : List (κ × α)) (k : κ) :
    Option α :=
  (m.find? (fun p => decide (p.1 = k))).map (fun p => p.2)

/-- Replace-or-insert in an association list, modelling Go map assignment
`m[k] = v` (overwrites the existing binding, else appends). -/
def alistSet {κ α : Type} [DecidableEq κ] (m : List (κ × α)) (k : κ) (v : α) :
    List (κ × α) :=
  match m with
  | [] => [(k, v)]
  | (k', v') :: rest =>
    if k' = k then (k, v) :: rest else (k', v') :: alistSet rest k v

/-- One element of a Route's flat `info` array.  The source only ever
distinguishes, via a Go type assertion `.(string)`, whether an element is a
string; every non-string JSON value is `nonstr`. -/
inductive InfoVal : Type
  | str (s : String)
  | nonstr
deriving DecidableEq, Repr

/-- `RouteInfo`, mirroring the Go struct of the same name. -/
structure RouteInfo : Type where
  Index : Int
  Name : String
  Direction : String
  Priority : Int
  Info : List InfoVal
deriving DecidableEq, Repr

/-- `RouteData`, mirroring the Go struct: the derived property map, modelled
as an association list with Go-map write semantics. -/
structure RouteData : Type where
  Properties : List (String × String)
deriving DecidableEq, Repr

/-- `Node`, mirroring the Go struct (the nested `Info.Props` fields are
flattened; they are the only fields the source ever reads). -/
structure Node : Type where
  ID : Int
  NodeName : String
  DeviceID : Int
  MediaClass : String
deriving DecidableEq, Repr

/-- `Device`, mirroring the Go struct (the nested `Info.Props` name fields
and `Info.Params.Route` are flattened; `Profile` is never read). -/
structure Device : Type where
  ID : Int
  DeviceName : String
  DeviceAlias : String
  Route : List RouteInfo
deriving DecidableEq, Repr

/-- The zero value of the Go `Device` struct, produced by a comma-ok-free
map read of an absent key. -/
def zeroDevice : Device :=
  { ID := 0, DeviceName := "", DeviceAlias := "", Route := [] }

/-- Outcome of the dynamic type switch `handleDefaultSinkChange` performs on
a decoded metadata `value`.  The external JSON decode of a string value is
folded into the constructor: `objWithName`/`objNoName` are the
`map[string]interface` case (with/without a string "name" field),
`jsonStrWithName`/`jsonStrNoName` are string values that `json.Unmarshal`
re-parses into an object (with/without a string "name" field), `rawStr` is a
string value that is not valid JSON (the source falls back to trimming
quotes), and `otherVal` is any other dynamic type (number, bool, null,
array), for which the switch leaves the name empty. -/
inductive MetaValue : Type
  | objWithName (s : String)
  | objNoName
  | jsonStrWithName (s : String)
  | jsonStrNoName
  | rawStr (s : String)
  | otherVal
deriving DecidableEq, Repr

/-- `MetadataEntry`, mirroring the Go struct (the Go field `Type` is spelt
`Typ` here because `Type` is a Lean keyword; the source never reads it). -/
structure MetadataEntry : Type where
  Subject : Int
  Key : String
  Typ : String
  Value : MetaValue
deriving DecidableEq, Repr

/-- `MetadataUpdate`, mirroring the Go struct. -/
structure MetadataUpdate : Type where
  ID : Int
  Metadata : List MetadataEntry
deriving DecidableEq, Repr

/-- The `nodeName` computed by the value switch at the top of
`handleDefaultSinkChange`. -/
def extractNodeName : MetaValue → String
  | .objWithName s => s
  | .objNoName => ""
  | .jsonStrWithName s => s
  | .jsonStrNoName => ""
  | .rawStr s => trimQuotes s
  | .otherVal => ""

/-- The package-level keyword list `publicDevice`. -/
def publicDevice : List String := ["speaker", "hdmi", "displayport"]

/-- The package-level keyword list `privateDevice`. -/
def privateDevice : List String := ["headphones", "headset"]

/-- The pairing loop of `ParseRouteProperties`: consume two elements at a
time, assigning `Properties[key] = val` whenever both type assertions
succeed; the loop condition `i+1 < len` stops when fewer than two elements
remain. -/
def parsePairs : List InfoVal → List (String × String) → List (String × String)
  | k :: v :: rest, acc =>
    parsePairs rest
      (match k, v with
       | .str ks, .str vs => alistSet acc ks vs
       | _, _ => acc)
  | _, acc => acc

/-- `ParseRouteProperties`, mirroring the Go function: empty map when the
flat list has fewer than 3 entries, otherwise pairs from index 1 (index 0 is
never consulted). -/
def ParseRouteProperties (infoArray : List InfoVal) : RouteData :=
  if infoArray.length < 3 then { Properties := [] }
  else { Properties := parsePairs infoArray.tail [] }

/-! ### Go's `sort.Slice` on the route slice

`GetHighestPriorityOutputRoute` calls `sort.Slice(outputRoutes, less)` with
`less i j = outputRoutes[i].Priority > outputRoutes[j].Priority` and takes
element 0.  Since Go 1.19 `sort.Slice` is pattern-defeating quicksort
(`src/sort/zsortfunc.go`): insertion sort for ranges of at most 12
elements, otherwise a partitioning loop with a ninther pivot, pattern
breaking, a partial-insertion-sort fast path, and a heapsort fallback.  It
is embedded below index for index over the route list, with every loop
written as structural recursion on an explicit iteration bound that the
loop's own progress argument (the index strictly advances, or the range
strictly shrinks) keeps from ever being exhausted; the bound-zero arms are
dead code.  Go's unsigned 64-bit xorshift arithmetic is modelled on `Nat`
with explicit reduction modulo 2 to the 64. -/

/-- Element returned by an out-of-range read.  Go panics on an
out-of-range slice index; the executed sort paths never produce one. -/
def dummyRoute : RouteInfo :=
  { Index := 0, Name := "", Direction := "", Priority := 0, Info := [] }

/-- Indexed read of the route slice, `data[i]`. -/
def lget (l : List RouteInfo) (i : Nat) : RouteInfo :=
  l.getD i dummyRoute

/-- The captured comparator: `data.Less(i, j)` is
`outputRoutes[i].Priority > outputRoutes[j].Priority`. -/
def goLess (l : List RouteInfo) (i j : Nat) : Bool :=
  decide ((lget l j).Priority < (lget l i).Priority)

/-- `data.Swap(i, j)`; identity on an out-of-range index (where Go would
panic; the executed sort paths keep every swap in range). -/
def lswap (l : List RouteInfo) (i j : Nat) : List RouteInfo :=
  if i < l.length ∧ j < l.length then
    (l.set i (lget l j)).set j (lget l i)
  else l

/-- The inner loop of `insertionSort_func`:
`for j := i; j > a && data.Less(j, j-1); j-- { data.Swap(j, j-1) }`,
structurally on `j`. -/
def insertionSortInner : List RouteInfo → Nat → Nat → List RouteInfo
  | l, 0, _ => l
  | l, j+1, a =>
    if a < j+1 ∧ goLess l (j+1) j then
      insertionSortInner (lswap l (j+1) j) j a
    else l

/-- The outer loop of `insertionSort_func`, iterating `i` upward `n`
times. -/
def insertionSortOuter : List RouteInfo → Nat → Nat → Nat → List RouteInfo
  | l, _, _, 0 => l
  | l, i, a, n+1 => insertionSortOuter (insertionSortInner l i a) (i+1) a n

/-- `insertionSort_func(data, a, b)`: the outer loop runs for
`i = a+1 .. b-1`. -/
def insertionSortRange (l : List RouteInfo) (a b : Nat) : List RouteInfo :=
  insertionSortOuter l (a+1) a (b - (a+1))

/-- The loop of `siftDown_func`; the root strictly descends the heap, so
`hi + 1` iterations always suffice. -/
def siftDownLoop : List RouteInfo → Nat → Nat → Nat → Nat → List RouteInfo
  | l, _, _, _, 0 => l
  | l, root, hi, first, n+1 =>
    let child := 2*root + 1
    if hi ≤ child then l
    else
      let child :=
        if child + 1 < hi ∧ goLess l (first+child) (first+child+1) then
          child + 1
        else child
      if ¬ goLess l (first+root) (first+child) then l
      else siftDownLoop (lswap l (first+root) (first+child)) child hi first n

/-- `siftDown_func(data, lo, hi, first)`. -/
def siftDown (l : List RouteInfo) (lo hi first : Nat) : List RouteInfo :=
  siftDownLoop l lo hi first (hi + 1)

/-- The heap-construction loop of `heapSort_func`:
`for i := (hi-1)/2; i >= 0; i--`, structurally on `i`. -/
def heapBuildAux : List RouteInfo → Nat → Nat → Nat → List RouteInfo
  | l, hi, first, 0 => siftDown l 0 hi first
  | l, hi, first, i+1 => heapBuildAux (siftDown l (i+1) hi first) hi first i

/-- The pop loop of `heapSort_func`: `for i := hi-1; i >= 0; i--`,
structurally on `i`. -/
def heapPopAux : List RouteInfo → Nat → Nat → List RouteInfo
  | l, first, 0 => siftDown (lswap l first first) 0 0 first
  | l, first, i+1 =>
    heapPopAux (siftDown (lswap l first (first+i+1)) 0 (i+1) first) first i

/-- `heapSort_func(data, a, b)` (the pdqsort fallback when the bad-pivot
budget is exhausted). -/
def heapSort (l : List RouteInfo) (a b : Nat) : List RouteInfo :=
  let first := a
  let hi := b - a
  let l1 := heapBuildAux l hi first ((hi - 1) / 2)
  match hi with
  | 0 => l1
  | n+1 => heapPopAux l1 first n

/-- The loop of `reverseRange_func`: swap inward while `i < j`. -/
def reverseRangeAux : List RouteInfo → Nat → Nat → Nat → List RouteInfo
  | l, _, _, 0 => l
  | l, i, j, n+1 =>
    if i < j then reverseRangeAux (lswap l i j) (i+1) (j-1) n else l

/-- `reverseRange_func(data, a, b)`. -/
def reverseRange (l : List RouteInfo) (a b : Nat) : List RouteInfo :=
  reverseRangeAux l a (b-1) b

/-- `order2_func`: order two indexes by the comparator, counting an
inversion into `swaps`. -/
def order2 (l : List RouteInfo) (a b swaps : Nat) : Nat × Nat × Nat :=
  if goLess l b a then (b, a, swaps+1) else (a, b, swaps)

/-- `median_func`: the index of the median of three, threading `swaps`. -/
def median (l : List RouteInfo) (a b c swaps : Nat) : Nat × Nat :=
  let p1 := order2 l a b swaps
  let p2 := order2 l p1.2.1 c p1.2.2
  let p3 := order2 l p1.1 p2.1 p2.2.2
  (p3.2.1, p3.2.2)

/-- `medianAdjacent_func`: median of `data[a-1]`, `data[a]`, `data[a+1]`. -/
def medianAdjacent (l : List RouteInfo) (a swaps : Nat) : Nat × Nat :=
  median l (a-1) a (a+1) swaps

/-- The sortedness hint of `choosePivot_func`. -/
inductive SortedHint : Type
  | increasingHint
  | decreasingHint
  | unknownHint
deriving DecidableEq, Repr

/-- The hint from the comparison-inversion count: 0 of the 12 possible
inversions means increasing, all 12 means decreasing. -/
def hintOf (swaps : Nat) : SortedHint :=
  if swaps = 0 then .increasingHint
  else if swaps = 12 then .decreasingHint
  else .unknownHint

/-- `choosePivot_func(data, a, b)`: static pivot below 8 elements, median
of three below 50, Tukey ninther from 50 on (`shortestNinther = 50`,
`maxSwaps = 12`). -/
def choosePivot (l : List RouteInfo) (a b : Nat) : Nat × SortedHint :=
  let len := b - a
  let i0 := a + len/4*1
  let j0 := a + len/4*2
  let k0 := a + len/4*3
  if 8 ≤ len then
    if 50 ≤ len then
      let m1 := medianAdjacent l i0 0
      let m2 := medianAdjacent l j0 m1.2
      let m3 := medianAdjacent l k0 m2.2
      let mf := median l m1.1 m2.1 m3.1 m3.2
      (mf.1, hintOf mf.2)
    else
      let mf := median l i0 j0 k0 0
      (mf.1, hintOf mf.2)
  else (j0, hintOf 0)

/-- The index-advancing scan `for i <= j && data.Less(i, a) { i++ }` of
`partition_func`. -/
def partSkipI : List RouteInfo → Nat → Nat → Nat → Nat → Nat
  | _, i, _, _, 0 => i
  | l, i, j, a, n+1 =>
    if i ≤ j ∧ goLess l i a then partSkipI l (i+1) j a n else i

/-- The index-retreating scan `for i <= j && !data.Less(j, a) { j-- }` of
`partition_func`. -/
def partSkipJ : List RouteInfo → Nat → Nat → Nat → Nat → Nat
  | _, _, j, _, 0 => j
  | l, i, j, a, n+1 =>
    if i ≤ j ∧ ¬ goLess l j a then partSkipJ l i (j-1) a n else j

/-- The main loop of `partition_func`; returns the data and the final `j`. -/
def partitionLoop : List RouteInfo → Nat → Nat → Nat → Nat →
    List RouteInfo × Nat
  | l, _, j, _, 0 => (l, j)
  | l, i, j, a, n+1 =>
    let i := partSkipI l i j a (j+2)
    let j := partSkipJ l i j a (j+2)
    if j < i then (l, j)
    else partitionLoop (lswap l i j) (i+1) (j-1) a n

/-- `partition_func(data, a, b, pivot)`: move the pivot to `a`, run the
two scans once (detecting an already-partitioned range), otherwise swap
and enter the main loop; returns data, the new pivot position and the
already-partitioned flag. -/
def partition (l : List RouteInfo) (a b pivot : Nat) :
    List RouteInfo × Nat × Bool :=
  let l := lswap l a pivot
  let i := partSkipI l (a+1) (b-1) a (b+1)
  let j := partSkipJ l i (b-1) a (b+1)
  if j < i then
    (lswap l j a, j, true)
  else
    let p := partitionLoop (lswap l i j) (i+1) (j-1) a b
    (lswap p.1 p.2 a, p.2, false)

/-- The `i`-scan `for i <= j && !data.Less(pivot, i) { i++ }` of
`partitionEqual_func` (the pivot sits at `a`). -/
def partEqSkipI : List RouteInfo → Nat → Nat → Nat → Nat → Nat
  | _, i, _, _, 0 => i
  | l, i, j, a, n+1 =>
    if i ≤ j ∧ ¬ goLess l a i then partEqSkipI l (i+1) j a n else i

/-- The `j`-scan `for i <= j && data.Less(pivot, j) { j-- }` of
`partitionEqual_func`. -/
def partEqSkipJ : List RouteInfo → Nat → Nat → Nat → Nat → Nat
  | _, _, j, _, 0 => j
  | l, i, j, a, n+1 =>
    if i ≤ j ∧ goLess l a j then partEqSkipJ l i (j-1) a n else j

/-- The loop of `partitionEqual_func`; returns the data and the final
`i`. -/
def partitionEqualLoop : List RouteInfo → Nat → Nat → Nat → Nat →
    List RouteInfo × Nat
  | l, i, _, _, 0 => (l, i)
  | l, i, j, a, n+1 =>
    let i := partEqSkipI l i j a (j+2)
    let j := partEqSkipJ l i j a (j+2)
    if j < i then (l, i)
    else partitionEqualLoop (lswap l i j) (i+1) (j-1) a n

/-- `partitionEqual_func(data, a, b, pivot)`: partition into elements equal
to the pivot value followed by elements greater than it; returns the data
and the first index of the greater part. -/
def partitionEqual (l : List RouteInfo) (a b pivot : Nat) :
    List RouteInfo × Nat :=
  let l := lswap l a pivot
  partitionEqualLoop l (a+1) (b-1) a b

/-- The sorted-prefix scan `for i < b && !data.Less(i, i-1) { i++ }` of
`partialInsertionSort_func`. -/
def scanSorted : List RouteInfo → Nat → Nat → Nat → Nat
  | _, i, _, 0 => i
  | l, i, b, n+1 =>
    if i < b ∧ ¬ goLess l i (i-1) then scanSorted l (i+1) b n else i

/-- The left-shifting loop of `partialInsertionSort_func`:
`for j := i-1; j >= 1; j--`, swapping while the pair is inverted. -/
def shiftLeftLoop : List RouteInfo → Nat → List RouteInfo
  | l, 0 => l
  | l, j+1 =>
    if goLess l (j+1) j then shiftLeftLoop (lswap l (j+1) j) j else l

/-- The right-shifting loop of `partialInsertionSort_func`:
`for j := i+1; j < b; j++`, swapping while the pair is inverted. -/
def shiftRightLoop : List RouteInfo → Nat → Nat → Nat → List RouteInfo
  | l, _, _, 0 => l
  | l, j, b, n+1 =>
    if j < b ∧ goLess l j (j-1) then
      shiftRightLoop (lswap l j (j-1)) (j+1) b n
    else l

/-- The step loop of `partialInsertionSort_func` (`maxSteps = 5`,
`shortestShifting = 50`); returns whether the range ended sorted, with the
(possibly mutated) data. -/
def partialInsertionSortSteps : List RouteInfo → Nat → Nat → Nat → Nat →
    Bool × List RouteInfo
  | l, _, _, _, 0 => (false, l)
  | l, i, a, b, s+1 =>
    let i := scanSorted l i b b
    if i = b then (true, l)
    else if b - a < 50 then (false, l)
    else
      let l := lswap l i (i-1)
      let l := if 2 ≤ i - a then shiftLeftLoop l (i-1) else l
      let l := if 2 ≤ b - i then shiftRightLoop l (i+1) b b else l
      partialInsertionSortSteps l i a b s

/-- `partialInsertionSort_func(data, a, b)`. -/
def partialInsertionSort (l : List RouteInfo) (a b : Nat) :
    Bool × List RouteInfo :=
  partialInsertionSortSteps l (a+1) a b 5

/-- `bits.Len` on a 64-bit-range natural: the iteration bound `n+1`
dominates the bit count. -/
def bitsLenAux : Nat → Nat → Nat
  | 0, _ => 0
  | fuel+1, n => if n = 0 then 0 else bitsLenAux fuel (n / 2) + 1

/-- `bits.Len(uint(n))`. -/
def bitsLen (n : Nat) : Nat :=
  bitsLenAux (n+1) n

/-- `nextPowerOfTwo(length) = 1 << bits.Len(uint(length))`. -/
def nextPowerOfTwo (n : Nat) : Nat :=
  2 ^ bitsLen n

/-- One step of the 64-bit xorshift generator of `sort`:
shift-xor by 13, 7 and 17 with wrap-around at 2 to the 64; returns the new
state (which is also the drawn value). -/
def xorshiftNext (x : Nat) : Nat :=
  let x1 := (x ^^^ (x <<< 13)) % (2 ^ 64)
  let x2 := (x1 ^^^ (x1 >>> 7)) % (2 ^ 64)
  (x2 ^^^ (x2 <<< 17)) % (2 ^ 64)

/-- The masked, wrapped draw `other` of `breakPatterns_func`. -/
def breakPatternsOther (rng len modulus : Nat) : Nat :=
  let o := rng &&& (modulus - 1)
  if len ≤ o then o - len else o

/-- `breakPatterns_func(data, a, b)`: on ranges of at least 8 elements,
swap the three elements around the middle with xorshift-drawn positions
(the generator is seeded with the range length); its three iterations are
unrolled. -/
def breakPatterns (l : List RouteInfo) (a b : Nat) : List RouteInfo :=
  let len := b - a
  if 8 ≤ len then
    let modulus := nextPowerOfTwo len
    let idx := a + (len/4)*2 - 1
    let s1 := xorshiftNext len
    let l := lswap l (idx - 1) (a + breakPatternsOther s1 len modulus)
    let s2 := xorshiftNext s1
    let l := lswap l idx (a + breakPatternsOther s2 len modulus)
    let s3 := xorshiftNext s2
    lswap l (idx + 1) (a + breakPatternsOther s3 len modulus)
  else l

/-- The body of `pdqsort_func(data, a, b, limit)`.  The first argument
bounds the combined loop iterations and recursive calls: every
continuation of the loop and every recursive call strictly shrinks the
range `[a, b)`, so a bound one above the initial length is never
exhausted.  `wasBalanced` and `wasPartitioned` are the loop-carried flags,
reset to `true` in each fresh recursive call exactly as Go's local
variables are. -/
def pdqsortAux : Nat → List RouteInfo → Nat → Nat → Nat → Bool → Bool →
    List RouteInfo
  | 0, l, _, _, _, _, _ => l
  | fuel+1, l, a, b, limit, wasBalanced, wasPartitioned =>
    let length := b - a
    if length ≤ 12 then insertionSortRange l a b
    else if limit = 0 then heapSort l a b
    else
      let l := if wasBalanced = false then breakPatterns l a b else l
      let limit := if wasBalanced = false then limit - 1 else limit
      let cp := choosePivot l a b
      let l := if cp.2 = SortedHint.decreasingHint then reverseRange l a b
               else l
      let pivot := if cp.2 = SortedHint.decreasingHint then
                     (b - 1) - (cp.1 - a)
                   else cp.1
      let hint := if cp.2 = SortedHint.decreasingHint then
                    SortedHint.increasingHint
                  else cp.2
      let pis := if wasBalanced = true ∧ wasPartitioned = true ∧
                    hint = SortedHint.increasingHint then
                   partialInsertionSort l a b
                 else (false, l)
      if pis.1 = true then pis.2
      else
        let l := pis.2
        if 0 < a ∧ ¬ goLess l (a-1) pivot then
          let pe := partitionEqual l a b pivot
          pdqsortAux fuel pe.1 pe.2 b limit wasBalanced wasPartitioned
        else
          let pr := partition l a b pivot
          let mid := pr.2.1
          let wasBalanced' :=
            decide (length / 8 ≤ min (mid - a) (b - mid))
          if mid - a < b - mid then
            let l := pdqsortAux fuel pr.1 a mid limit true true
            pdqsortAux fuel l (mid+1) b limit wasBalanced' pr.2.2
          else
            let l := pdqsortAux fuel pr.1 (mid+1) b limit true true
            pdqsortAux fuel l a mid limit wasBalanced' pr.2.2

/-- `pdqsort_func(data, a, b, limit)`. -/
def pdqsort (l : List RouteInfo) (a b limit : Nat) : List RouteInfo :=
  pdqsortAux (b - a + 1) l a b limit true true

/-- `sort.Slice(outputRoutes, less)`: pdqsort over the whole slice with the
bad-pivot budget `bits.Len(uint(length))`. -/
def goSortSlice (l : List RouteInfo) : List RouteInfo :=
  pdqsort l 0 l.length (bitsLen l.length)

/-- Insertion of `r` into a descending-sorted list before the first
element of strictly smaller `Priority`: the list-level description of what
one pass of the insertion sort's inner swap loop does (equal priorities
keep the earlier element in front). -/
def insertDesc (r : RouteInfo) : List RouteInfo → List RouteInfo
  | [] => [r]
  | x :: xs =>
    if x.Priority < r.Priority then r :: x :: xs else x :: insertDesc r xs

/-- The list-level insertion sort, inserting left to right: proven below
to coincide with `insertionSortRange` over the whole list, hence with
`sort.Slice`'s action on ranges of at most 12 elements. -/
def sortDesc (l : List RouteInfo) : List RouteInfo :=
  l.foldl (fun acc r => insertDesc r acc) []

/-- Descending sortedness by `Priority`: every element dominates all later
ones. -/
def sortedDescP : List RouteInfo → Prop
  | [] => True
  | x :: t => (∀ y ∈ t, y.Priority ≤ x.Priority) ∧ sortedDescP t

/-- `GetHighestPriorityOutputRoute`, mirroring the Go function: filter the
routes whose direction case-insensitively equals "output", sort with
`sort.Slice` descending by priority, and return the first element (none
when no output route exists). -/
def GetHighestPriorityOutputRoute (dev : Device) : Option RouteInfo :=
  let outputRoutes := dev.Route.filter (fun r => eqFold r.Direction "output")
  (goSortSlice outputRoutes).head?

/-- `checkDeviceCategory`, mirroring the Go function of the
transition-detection revision (it takes the device value directly). -/
def checkDeviceCategory (dev : Device) (keywords : List String) : Bool :=
  match GetHighestPriorityOutputRoute dev with
  | none => false
  | some topRoute =>
    let parsed := ParseRouteProperties topRoute.Info
    match alistGet parsed.Properties "port.type" with
    | some portType =>
      keywords.any (fun kw => containsSub (goToLower portType) kw)
    | none => false

/-- `IsPublicDevice`, mirroring the Go function. -/
def IsPublicDevice (dev : Device) : Bool :=
  checkDeviceCategory dev publicDevice

/-- `IsPrivateDevice`, mirroring the Go function. -/
def IsPrivateDevice (dev : Device) : Bool :=
  checkDeviceCategory dev privateDevice

/-- The daemon's global mutable state: the two registry maps and the two
session-state fields. -/
structure PwState : Type where
  GlobalNodes : List (Int × Node)
  GlobalDevices : List (Int × Device)
  currentDefaultSink : String
  IsUserOperation : Bool
deriving DecidableEq, Repr

/-- The state at process start: empty maps, empty sink name, flag unset. -/
def initState : PwState :=
  { GlobalNodes := [], GlobalDevices := [], currentDefaultSink := "",
    IsUserOperation := false }

/-- `GetNodeIDByName`, mirroring the Go function: scan `GlobalNodes` for the
first node whose `NodeName` matches.  (Go map iteration order is
unspecified; the model scans in insertion order.  The daemon assumes node
names are unique, under which the scan order is irrelevant.) -/
def GetNodeIDByName (st : PwState) (nodeName : String) : Option Int :=
  (st.GlobalNodes.find? (fun p => decide (p.2.NodeName = nodeName))).map
    (fun p => p.1)

/-- `GetDeviceIDByNodeName`, mirroring the Go function: resolve the name to
a node id, re-read the node from the map, and return its `DeviceID`. -/
def GetDeviceIDByNodeName (st : PwState) (nodeName : String) : Option Int :=
  match GetNodeIDByName st nodeName with
  | none => none
  | some nodeID =>
    match alistGet st.GlobalNodes nodeID with
    | none => none
    | some node => some node.DeviceID

/-- A comma-ok-free Go map read of `GlobalDevices` (`GlobalDevices[id]`),
yielding the zero `Device` when the key is absent, exactly as in
`handleDefaultSinkChange`. -/
def getDevD (st : PwState) (id : Int) : Device :=
  (alistGet st.GlobalDevices id).getD zeroDevice

/-- A transition event declared by the detector.  `routeSwitch` is the
per-device path (the `[Logic]` print in `handleDefaultRouteChange`,
identified by the updated device's id); `sinkSwitch` is the default-sink
metadata path (the `[Logic]` print in `handleDefaultSinkChange`, identified
by the prior and new default sink names). -/
inductive Transition : Type
  | routeSwitch (devID : Int)
  | sinkSwitch (oldSink newSink : String)
deriving DecidableEq, Repr

/-- `handleDefaultRouteChange` of the transition-detection revision: react
only when the updated device backs the current default sink, diff against
the snapshot still stored in `GlobalDevices`, and declare a transition when
the stored snapshot is Private and the incoming one is Public. -/
def handleDefaultRouteChange (st : PwState) (newDev : Device) :
    List Transition :=
  match GetDeviceIDByNodeName st st.currentDefaultSink with
  | none => []
  | some currentDevID =>
    if newDev.ID ≠ currentDevID then []
    else
      match alistGet st.GlobalDevices newDev.ID with
      | none => []
      | some oldDev =>
        if IsPrivateDevice oldDev && IsPublicDevice newDev then
          [Transition.routeSwitch newDev.ID]
        else []

/-- `onDeviceUpdate` (after a successful decode): run the route-change
detection against the pre-event state, then overwrite the registry entry. -/
def onDeviceUpdate (st : PwState) (dev : Device) : PwState × List Transition :=
  ({ st with GlobalDevices := alistSet st.GlobalDevices dev.ID dev },
   handleDefaultRouteChange st dev)

/-- `onNodeUpdate` (after a successful decode): overwrite the registry
entry; this path never declares a transition. -/
def onNodeUpdate (st : PwState) (node : Node) : PwState × List Transition :=
  ({ st with GlobalNodes := alistSet st.GlobalNodes node.ID node }, [])

/-- The body of the `handleDefaultSinkChange` loop for one metadata entry:
skip foreign keys, extract the node name (skipping when empty), then either
run the default-sink decision (first observation adopts silently; otherwise
resolve both names, classify, declare, and unconditionally adopt the new
name and clear the user flag) or record a user-initiated switch. -/
def processEntry (st : PwState) (entry : MetadataEntry) :
    PwState × List Transition :=
  if entry.Key ≠ "default.audio.sink" ∧
      entry.Key ≠ "default.configured.audio.sink" then
    (st, [])
  else
    let nodeName := extractNodeName entry.Value
    if nodeName = "" then (st, [])
    else if entry.Key = "default.audio.sink" then
      if st.currentDefaultSink = "" then
        ({ st with currentDefaultSink := nodeName }, [])
      else
        let oldName := st.currentDefaultSink
        let declared :=
          match GetDeviceIDByNodeName st oldName,
              GetDeviceIDByNodeName st nodeName with
          | some oldDevID, some newDevID =>
            IsPrivateDevice (getDevD st oldDevID) &&
              IsPublicDevice (getDevD st newDevID)
          | _, _ => false
        ({ st with currentDefaultSink := nodeName, IsUserOperation := false },
         if declared then [Transition.sinkSwitch oldName nodeName] else [])
    else
      ({ st with IsUserOperation := true }, [])

/-- `handleDefaultSinkChange`: process the metadata entries in received
order, threading the session state. -/
def handleDefaultSinkChange (st : PwState) :
    List MetadataEntry → PwState × List Transition
  | [] => (st, [])
  | e :: rest =>
    let p := processEntry st e
    let q := handleDefaultSinkChange p.1 rest
    (q.1, p.2 ++ q.2)

/-- `onMetadataUpdate` (after a successful decode). -/
def onMetadataUpdate (st : PwState) (meta : MetadataUpdate) :
    PwState × List Transition :=
  handleDefaultSinkChange st meta.Metadata

/-- One raw record of an event batch, as seen by `dispatcher`.  The two
external `json.Unmarshal` calls are modelled by the constructors: `badBase`
is a record whose base `PwObject` decode fails (`continue`), the tagged
constructors carry the typed decode's result (`none` when the typed decode
fails, in which case the handler does nothing), and `otherType` is a record
whose type tag matches no case of the switch. -/
inductive RawRecord : Type
  | badBase
  | nodeRec (d : Option Node)
  | deviceRec (d : Option Device)
  | metadataRec (d : Option MetadataUpdate)
  | otherType
deriving DecidableEq, Repr

/-- The dispatch of one raw record: the switch on the type tag in
`dispatcher`, composed with the decode guard at the top of each handler. -/
def dispatchOne (st : PwState) (r : RawRecord) : PwState × List Transition :=
  match r with
  | .badBase => (st, [])
  | .nodeRec none => (st, [])
  | .nodeRec (some n) => onNodeUpdate st n
  | .deviceRec none => (st, [])
  | .deviceRec (some d) => onDeviceUpdate st d
  | .metadataRec none => (st, [])
  | .metadataRec (some m) => onMetadataUpdate st m
  | .otherType => (st, [])

/-- `dispatcher`: process a whole batch in order, collecting every declared
transition. -/
def dispatcher (st : PwState) : List RawRecord → PwState × List Transition
  | [] => (st, [])
  | r :: rest =>
    let p := dispatchOne st r
    let q := dispatcher p.1 rest
    (q.1, p.2 ++ q.2)

/-- A raw record that fails to decode, either at the base type-tag decode or
at the typed decode. -/
def isBadRecord : RawRecord → Bool
  | .badBase => true
  | .nodeRec none => true
  | .deviceRec none => true
  | .metadataRec none => true
  | _ => false

/-! ### The mitigation orchestrator, modelled from the spec

The Go sources under `src/` only detect and log transitions; the mitigation
code (the caller of the C actuator `pw_mute_set` and the MPRIS pause
broadcast) is not among them.  It is modelled here from the spec. -/

/-- Modelled from the spec: an action of the Mitigation Orchestrator.  The
orchestration code invoking the mute actuator and the player-control
channel is missing from the sources; only the actuator `pw_mute_set`
(mapping `mute = true` to gain 0.0 and `false` to 1.0) and its header are
present. -/
inductive MitigationAction : Type
  | mute (nodeID : Int) (muted : Bool)
  | pauseBroadcast
deriving DecidableEq, Repr

/-- Modelled from the spec: a mitigation action together with the
millisecond offset, from the transition, at which it is issued. -/
structure TimedAction : Type where
  atMillis : Nat
  act : MitigationAction
deriving DecidableEq, Repr

/-- Modelled from the spec: the grace period (0.5 to 1 second) the
orchestrator waits after the pause broadcast before unmuting. -/
def graceMillis : Nat := 800

/-- Modelled from the spec: the overall deadline (about 3 seconds) of the
bounded pause-broadcast-then-unmute operation. -/
def deadlineMillis : Nat := 3000

/-- Modelled from the spec: on a declared transition the orchestrator,
given the affected node's handle (the node of the prior default sink),
issues mute immediately, broadcasts pause to all players, and unmutes the
same node after the grace period, within the overall deadline.  When the
affected node cannot be resolved no actuator call is possible. -/
def mitigate (st : PwState) (t : Transition) : List TimedAction :=
  let sinkName :=
    match t with
    | .sinkSwitch oldSink _ => oldSink
    | .routeSwitch _ => st.currentDefaultSink
  match GetNodeIDByName st sinkName with
  | some nid =>
    [⟨0, .mute nid true⟩, ⟨0, .pauseBroadcast⟩, ⟨graceMillis, .mute nid false⟩]
  | none => []

/-! ### Reference definitions written from the claims' words

These definitions follow the natural-language claims, to be compared with
the embedded source functions. -/

/-- The first element, in input order, attaining the maximal `Priority`:
the head keeps its place unless a strictly higher priority occurs later
(so on ties the earliest element wins).  Written from the claim's words as
the reference for route selection. -/
def specFirstMax : List RouteInfo → Option RouteInfo
  | [] => none
  | r :: rest =>
    match specFirstMax rest with
    | none => some r
    | some m => if m.Priority > r.Priority then some m else some r

/-- Reference lookup written from the claim's words: over the flat list
with position 0 removed, take the key/value pairs at consecutive positions
where both elements are strings, skip pairs where either element is not a
string, and let the last occurrence of a key win. -/
def pairsLookup (k : String) : List InfoVal → Option String
  | (InfoVal.str a) :: (InfoVal.str b) :: rest =>
    (match pairsLookup k rest with
     | some v => some v
     | none => if a = k then some b else none)
  | _ :: _ :: rest => pairsLookup k rest
  | _ => none

/-! ### Concrete inputs used by the end-to-end scenario and witnesses -/

/-- The headset sink node of the end-to-end scenario. -/
def nodeHeadset : Node :=
  { ID := 10, NodeName := "sink.headset", DeviceID := 1,
    MediaClass := "Audio/Sink" }

/-- The headset device of the end-to-end scenario: one output route of
priority 5 whose properties carry `port.type` "headset-output". -/
def devHeadset : Device :=
  { ID := 1, DeviceName := "", DeviceAlias := "",
    Route := [{ Index := 0, Name := "analog-output-headset",
                Direction := "output", Priority := 5,
                Info := [.nonstr, .str "port.type", .str "headset-output"] }] }

/-- The HDMI device of the end-to-end scenario. -/
def devHdmi : Device :=
  { ID := 2, DeviceName := "", DeviceAlias := "",
    Route := [{ Index := 0, Name := "hdmi-output-0",
                Direction := "output", Priority := 3,
                Info := [.nonstr, .str "port.type", .str "hdmi-output"] }] }

/-- The HDMI sink node of the end-to-end scenario. -/
def nodeHdmi : Node :=
  { ID := 20, NodeName := "sink.hdmi", DeviceID := 2,
    MediaClass := "Audio/Sink" }

/-- A `default.audio.sink` metadata entry carrying the given node name as a
raw string value. -/
def sinkEntry (name : String) : MetadataEntry :=
  { Subject := 0, Key := "default.audio.sink", Typ := "Spa:String:JSON",
    Value := .rawStr name }

/-- A `default.configured.audio.sink` metadata entry carrying the given
node name as a nested-object value. -/
def configuredEntry (name : String) : MetadataEntry :=
  { Subject := 0, Key := "default.configured.audio.sink",
    Typ := "Spa:String:JSON", Value := .objWithName name }

/-- The six records of the end-to-end scenario, in feed order. -/
def scenarioRecords : List RawRecord :=
  [ .nodeRec (some nodeHeadset),
    .deviceRec (some devHeadset),
    .metadataRec (some { ID := 0, Metadata := [sinkEntry "sink.headset"] }),
    .deviceRec (some devHdmi),
    .nodeRec (some nodeHdmi),
    .metadataRec (some { ID := 0, Metadata := [sinkEntry "sink.hdmi"] }) ]

/-- The state after the first five scenario records: both registries are
populated and the default sink is the headset node. -/
def stBeforeSwitch : PwState :=
  (dispatcher initState (scenarioRecords.take 5)).1

/-- Node for the ambiguous-classification counterexample. -/
def nodeAmb : Node :=
  { ID := 10, NodeName := "sink.amb", DeviceID := 1,
    MediaClass := "Audio/Sink" }

/-- A device whose dominant output route's port type contains a keyword of
both classification sets, so it classifies as Private and Public at once. -/
def devAmb : Device :=
  { ID := 1, DeviceName := "", DeviceAlias := "",
    Route := [{ Index := 0, Name := "amb-output",
                Direction := "output", Priority := 5,
                Info := [.nonstr, .str "port.type",
                         .str "headphones-speaker"] }] }

/-- State for the ambiguous-classification counterexample: the ambiguous
node backs the default sink but no device snapshot is stored yet. -/
def stAmb : PwState :=
  { GlobalNodes := [(10, nodeAmb)], GlobalDevices := [],
    currentDefaultSink := "sink.amb", IsUserOperation := false }

/-- The priority-7 output route of the spec's tie-free selection example. -/
def routePrio7 : RouteInfo :=
  { Index := 1, Name := "p7", Direction := "output", Priority := 7,
    Info := [.nonstr, .str "port.type", .str "speaker"] }

/-- A device carrying output routes of priorities 3, 7 and 1 in that input
order, the spec's route-selection example. -/
def devPrio371 : Device :=
  { ID := 7, DeviceName := "", DeviceAlias := "",
    Route := [{ Index := 0, Name := "p3", Direction := "output",
                Priority := 3, Info := [] },
              routePrio7,
              { Index := 2, Name := "p1", Direction := "output",
                Priority := 1, Info := [] }] }

/-- A device with only an input-direction route. -/
def devNoOutput : Device :=
  { ID := 3, DeviceName := "", DeviceAlias := "",
    Route := [{ Index := 0, Name := "mic", Direction := "input",
                Priority := 9,
                Info := [.nonstr, .str "port.type", .str "speaker"] }] }

/-- An output route whose flat property list has fewer than 3 entries. -/
def routeShortInfo : RouteInfo :=
  { Index := 0, Name := "short", Direction := "output", Priority := 1,
    Info := [.str "port.type", .str "speaker"] }

/-- A device whose only output route carries the short property list. -/
def devShortInfo : Device :=
  { ID := 4, DeviceName := "", DeviceAlias := "",
    Route := [routeShortInfo] }

/-- An output route of the given priority, for the long-route-list
counterexample. -/
def plainRoute (p : Int) : RouteInfo :=
  { Index := p, Name := "asc", Direction := "output", Priority := p,
    Info := [] }

/-- The earlier of the two routes tied at the maximal priority 49. -/
def tieRouteA : RouteInfo :=
  { Index := 100, Name := "tieA", Direction := "output", Priority := 49,
    Info := [] }

/-- The later of the two routes tied at the maximal priority 49. -/
def tieRouteB : RouteInfo :=
  { Index := 101, Name := "tieB", Direction := "output", Priority := 49,
    Info := [] }

/-- A device with fifty output routes: priorities ascending 1..48, then
the two routes tied at the maximum, `tieRouteA` before `tieRouteB`. -/
def devFifty : Device :=
  { ID := 50, DeviceName := "", DeviceAlias := "",
    Route := ((List.range 48).map (fun i => plainRoute (Int.ofNat i + 1)))
      ++ [tieRouteA, tieRouteB] }

/-- The fold step describing the head of the descending sort: keep the
current best unless the new element's priority is strictly higher. -/
def stepMax (o : Option RouteInfo) (r : RouteInfo) : Option RouteInfo :=
  some (match o with
        | none => r
        | some x => if x.Priority < r.Priority then r else x)

/-! ### Helper lemmas -/

/-- Go-map lookup after Go-map assignment. -/
theorem alistGet_set {κ α : Type} [DecidableEq κ] (m : List (κ × α)) (k : κ)
    (v : α) (q : κ) :
    alistGet (alistSet m k v) q = if q = k then some v else alistGet m q := by
  induction m with
  | nil =>
    by_cases hq : q = k
    · subst hq
      simp [alistGet, alistSet, List.find?]
    · have hd : (decide (k = q)) = false :=
        decide_eq_false (fun h => hq h.symm)
      simp [alistGet, alistSet, List.find?, hq, hd]
  | cons p rest ih =>
    obtain ⟨k', v'⟩ := p
    by_cases hk : k' = k
    · subst hk
      by_cases hq : q = k' <;>
        simp [alistGet, alistSet, List.find?, hq, eq_comm]
    · by_cases hq : q = k'
      · subst hq
        simp [alistGet, alistSet, List.find?, hk, Ne.symm hk, eq_comm]
      · simpa [alistGet, alistSet, List.find?, hk, hq, eq_comm] using ih

/-- Induction principle matching the two-at-a-time recursion of
`parsePairs` and `pairsLookup`. -/
theorem twoStepInduction {motive : List InfoVal → Prop} (h0 : motive [])
    (h1 : ∀ x, motive [x])
    (h2 : ∀ a b rest, motive rest → motive (a :: b :: rest)) :
    ∀ l, motive l
  | [] => h0
  | [x] => h1 x
  | a :: b :: rest => h2 a b rest (twoStepInduction h0 h1 h2 rest)

/-- The accumulator characterisation of the `ParseRouteProperties` pairing
loop: a key resolves to the last string/string pair for it, else to the
accumulator's binding. -/
theorem parsePairs_get (l : List InfoVal) (acc : List (String × String))
    (k : String) :
    alistGet (parsePairs l acc) k =
      match pairsLookup k l with
      | some v => some v
      | none => alistGet acc k := by
  induction l using twoStepInduction generalizing acc with
  | h0 => simp [parsePairs, pairsLookup]
  | h1 x => simp [parsePairs, pairsLookup]
  | h2 a b rest ih =>
    match a, b with
    | .str ks, .str vs =>
      rw [show parsePairs (InfoVal.str ks :: InfoVal.str vs :: rest) acc =
            parsePairs rest (alistSet acc ks vs) from rfl]
      rw [ih]
      cases h : pairsLookup k rest with
      | some v => simp [pairsLookup, h]
      | none =>
        by_cases hk : ks = k
        · subst hk
          simp [pairsLookup, h, alistGet_set]
        · simp [pairsLookup, h, alistGet_set, hk, eq_comm]
          rw [if_neg (fun hkk => hk hkk.symm)]
    | .str ks, .nonstr =>
      rw [show parsePairs (InfoVal.str ks :: InfoVal.nonstr :: rest) acc =
            parsePairs rest acc from rfl]
      rw [ih]
      rfl
    | .nonstr, .str vs =>
      rw [show parsePairs (InfoVal.nonstr :: InfoVal.str vs :: rest) acc =
            parsePairs rest acc from rfl]
      rw [ih]
      rfl
    | .nonstr, .nonstr =>
      rw [show parsePairs (InfoVal.nonstr :: InfoVal.nonstr :: rest) acc =
            parsePairs rest acc from rfl]
      rw [ih]
      rfl

/-- The head of an insertion is the better of the inserted element and the
previous head, with ties keeping the previous head. -/
theorem insertDesc_head (r : RouteInfo) (l : List RouteInfo) :
    (insertDesc r l).head? = stepMax l.head? r := by
  cases l with
  | nil => rfl
  | cons x xs =>
    by_cases h : x.Priority < r.Priority <;> simp [insertDesc, stepMax, h]

/-- The head of the left fold of insertions is the fold of `stepMax`. -/
theorem foldl_insertDesc_head (l : List RouteInfo) (acc : List RouteInfo) :
    (l.foldl (fun a r => insertDesc r a) acc).head? =
      l.foldl stepMax acc.head? := by
  induction l generalizing acc with
  | nil => rfl
  | cons r rest ih =>
    simp only [List.foldl]
    rw [ih, insertDesc_head]

/-- Folding `stepMax` from a seeded best computes the first maximum of the
remainder merged with the seed, ties keeping the seed. -/
theorem foldl_stepMax_some (l : List RouteInfo) (x : RouteInfo) :
    l.foldl stepMax (some x) =
      some (match specFirstMax l with
            | none => x
            | some m => if x.Priority < m.Priority then m else x) := by
  induction l generalizing x with
  | nil => rfl
  | cons r rest ih =>
    simp only [List.foldl, stepMax, specFirstMax]
    rw [ih]
    cases h : specFirstMax rest with
    | none =>
      simp only [h]
    | some m =>
      simp only [h]
      by_cases h1 : x.Priority < r.Priority <;>
        by_cases h2 : m.Priority > r.Priority <;>
        by_cases h3 : r.Priority < m.Priority <;>
        by_cases h4 : x.Priority < m.Priority <;>
        simp [h1, h2, h3, h4] <;> omega

/-- The head of the descending sort is the first maximal-priority element
in input order. -/
theorem sortDesc_head (l : List RouteInfo) :
    (sortDesc l).head? = specFirstMax l := by
  cases l with
  | nil => rfl
  | cons r rest =>
    show ((r :: rest).foldl (fun a r => insertDesc r a) []).head? = _
    rw [foldl_insertDesc_head]
    simp only [List.foldl, List.head?]
    rw [show stepMax none r = some r from rfl, foldl_stepMax_some]
    rw [specFirstMax]
    cases hm : specFirstMax rest with
    | none => rfl
    | some m =>
      by_cases hp : r.Priority < m.Priority <;> simp [gt_iff_lt, hp]

/-- A nonempty list always has a first maximum. -/
theorem specFirstMax_cons_ne_none (a : RouteInfo) (rest : List RouteInfo) :
    specFirstMax (a :: rest) ≠ none := by
  rw [specFirstMax]
  split
  · simp
  · split <;> simp

/-- A selected first maximum belongs to the list and dominates every
priority in it. -/
theorem specFirstMax_spec (l : List RouteInfo) (r : RouteInfo)
    (h : specFirstMax l = some r) :
    r ∈ l ∧ ∀ x ∈ l, x.Priority ≤ r.Priority := by
  induction l generalizing r with
  | nil => simp [specFirstMax] at h
  | cons a rest ih =>
    rw [specFirstMax] at h
    split at h
    · -- specFirstMax rest = none: the head is selected and rest is empty
      next hm =>
      cases h
      refine ⟨List.mem_cons_self _ _, ?_⟩
      intro x hx
      rcases List.mem_cons.1 hx with hxa | hxr
      · exact hxa ▸ le_refl _
      · exfalso
        cases rest with
        | nil => simp at hxr
        | cons b bs => exact specFirstMax_cons_ne_none b bs hm
    · -- specFirstMax rest = some m
      next m hm =>
      obtain ⟨hmem, hle⟩ := ih m hm
      by_cases hp : m.Priority > a.Priority
      · rw [if_pos hp] at h
        cases h
        refine ⟨List.mem_cons_of_mem a hmem, ?_⟩
        intro x hx
        rcases List.mem_cons.1 hx with hxa | hxr
        · subst hxa; omega
        · exact hle x hxr
      · rw [if_neg hp] at h
        cases h
        refine ⟨List.mem_cons_self _ _, ?_⟩
        intro x hx
        rcases List.mem_cons.1 hx with hxa | hxr
        · exact hxa ▸ le_refl _
        · have := hle x hxr; omega

/-- Membership in an insertion. -/
theorem mem_insertDesc (r y : RouteInfo) (s : List RouteInfo) :
    y ∈ insertDesc r s ↔ y = r ∨ y ∈ s := by
  induction s with
  | nil => simp [insertDesc]
  | cons x xs ih =>
    rw [insertDesc]
    by_cases h : x.Priority < r.Priority
    · simp [h]
    · simp [h, ih]
      tauto

/-- An insertion grows the length by one. -/
theorem insertDesc_length (r : RouteInfo) (s : List RouteInfo) :
    (insertDesc r s).length = s.length + 1 := by
  induction s with
  | nil => rfl
  | cons x xs ih =>
    rw [insertDesc]
    by_cases h : x.Priority < r.Priority <;> simp [h, ih]

/-- Insertion preserves descending sortedness. -/
theorem sortedDescP_insertDesc (r : RouteInfo) (s : List RouteInfo)
    (hs : sortedDescP s) : sortedDescP (insertDesc r s) := by
  induction s with
  | nil => exact ⟨by simp, trivial⟩
  | cons x xs ih =>
    rw [insertDesc]
    by_cases h : x.Priority < r.Priority
    · rw [if_pos h]
      refine ⟨?_, hs⟩
      intro y hy
      rcases List.mem_cons.1 hy with hyx | hyxs
      · subst hyx; omega
      · have := hs.1 y hyxs; omega
    · rw [if_neg h]
      refine ⟨?_, ih hs.2⟩
      intro y hy
      rcases (mem_insertDesc r y xs).1 hy with hyr | hyxs
      · subst hyr; omega
      · exact hs.1 y hyxs

/-- Dropping the final element preserves descending sortedness. -/
theorem sortedDescP_dropLast (s : List RouteInfo) (x : RouteInfo)
    (h : sortedDescP (s ++ [x])) : sortedDescP s := by
  induction s with
  | nil => trivial
  | cons a t ih =>
    refine ⟨?_, ih h.2⟩
    intro y hy
    exact h.1 y (by simp [hy])

/-- In a descending-sorted snoc list the final element is minimal. -/
theorem sortedDescP_last_min (s : List RouteInfo) (x : RouteInfo)
    (h : sortedDescP (s ++ [x])) :
    ∀ y ∈ s, x.Priority ≤ y.Priority := by
  induction s with
  | nil => simp
  | cons a t ih =>
    intro y hy
    rcases List.mem_cons.1 hy with hya | hyt
    · subst hya
      exact h.1 x (by simp)
    · exact ih h.2 y hyt

/-- Inserting an element beating the final one commutes with the snoc. -/
theorem insertDesc_append_last (r x : RouteInfo) (s : List RouteInfo)
    (h : x.Priority < r.Priority) :
    insertDesc r (s ++ [x]) = insertDesc r s ++ [x] := by
  induction s with
  | nil => simp [insertDesc, h]
  | cons a t ih =>
    rw [List.cons_append, insertDesc, insertDesc]
    by_cases ha : a.Priority < r.Priority
    · simp [ha]
    · simp [ha, ih]

/-- Inserting an element no greater than every element appends it. -/
theorem insertDesc_all_ge (r : RouteInfo) (s : List RouteInfo)
    (h : ∀ y ∈ s, r.Priority ≤ y.Priority) :
    insertDesc r s = s ++ [r] := by
  induction s with
  | nil => rfl
  | cons a t ih =>
    rw [insertDesc, if_neg (by have := h a (by simp); omega)]
    rw [ih (fun y hy => h y (by simp [hy]))]
    rfl

/-- Reading the element just after a prefix. -/
theorem lget_append_len (s t : List RouteInfo) (r : RouteInfo) :
    lget (s ++ r :: t) s.length = r := by
  induction s with
  | nil => rfl
  | cons a s' ih => simpa [lget, List.getD] using ih

/-- `lswap` commutes with an untouched head. -/
theorem lswap_cons_succ (a : RouteInfo) (l : List RouteInfo) (i j : Nat) :
    lswap (a :: l) (i+1) (j+1) = a :: lswap l i j := by
  rw [lswap, lswap]
  by_cases h : i < l.length ∧ j < l.length
  · rw [if_pos (by simp [Nat.succ_lt_succ h.1, Nat.succ_lt_succ h.2]),
      if_pos h]
    simp [lget, List.getD]
  · rw [if_neg (by simpa [Nat.succ_lt_succ_iff] using h), if_neg h]

/-- The base case of the adjacent swap. -/
theorem lswap_one_zero (x r : RouteInfo) (t : List RouteInfo) :
    lswap (x :: r :: t) 1 0 = r :: x :: t := by
  rw [lswap, if_pos (by simp)]
  simp [lget, List.getD, List.set]

/-- Swapping the two cells just after a prefix. -/
theorem lswap_adjacent (s t : List RouteInfo) (x r : RouteInfo) :
    lswap (s ++ x :: r :: t) (s.length + 1) s.length = s ++ r :: x :: t := by
  induction s with
  | nil => exact lswap_one_zero x r t
  | cons a s' ih =>
    rw [List.cons_append,
      show (a :: s').length = s'.length + 1 from by simp,
      lswap_cons_succ a (s' ++ x :: r :: t) (s'.length + 1) s'.length,
      ih]
    rfl

/-- The inner swap loop of the insertion sort, run at the element just
after a descending-sorted prefix, performs exactly the list-level
insertion into that prefix. -/
theorem insertionSortInner_insert (s : List RouteInfo) :
    ∀ (r : RouteInfo) (t : List RouteInfo), sortedDescP s →
      insertionSortInner (s ++ r :: t) s.length 0 = insertDesc r s ++ t := by
  induction s using List.reverseRecOn with
  | nil => intro r t _; rfl
  | append_singleton s' x ih =>
    intro r t hs
    rw [show (s' ++ [x]).length = s'.length + 1 from by simp]
    rw [insertionSortInner]
    rw [show (s' ++ [x]) ++ r :: t = s' ++ x :: r :: t from by simp]
    have hget1 : lget (s' ++ x :: r :: t) (s'.length + 1) = r := by
      have := lget_append_len (s' ++ [x]) t r
      simpa using this
    have hget0 : lget (s' ++ x :: r :: t) s'.length = x :=
      lget_append_len s' (r :: t) x
    by_cases hxr : x.Priority < r.Priority
    · rw [if_pos ⟨Nat.succ_pos _, by
        simp [goLess, hget0, hget1, hxr]⟩]
      rw [lswap_adjacent s' t x r]
      rw [ih r (x :: t) (sortedDescP_dropLast s' x hs)]
      rw [insertDesc_append_last r x s' hxr]
      simp
    · rw [if_neg (by
        intro hcon
        exact absurd (by simpa [goLess, hget0, hget1] using hcon.2) hxr)]
      rw [insertDesc_all_ge r (s' ++ [x]) ?_]
      · simp
      · intro y hy
        rcases List.mem_append.1 hy with hys | hyx
        · have hxy := sortedDescP_last_min s' x hs y hys
          omega
        · have : y = x := by simpa using hyx
          subst this
          omega

/-- The outer loop, started after a descending-sorted prefix, folds the
remaining elements through the list-level insertion. -/
theorem insertionSortOuter_insert (t : List RouteInfo) :
    ∀ s : List RouteInfo, sortedDescP s →
      insertionSortOuter (s ++ t) s.length 0 t.length =
        t.foldl (fun acc r => insertDesc r acc) s := by
  induction t with
  | nil => intro s _; simp [insertionSortOuter]
  | cons r t' ih =>
    intro s hs
    rw [show (r :: t').length = t'.length + 1 from rfl, insertionSortOuter]
    rw [insertionSortInner_insert s r t' hs]
    rw [show s.length + 1 = (insertDesc r s).length from
      (insertDesc_length r s).symm]
    rw [ih (insertDesc r s) (sortedDescP_insertDesc r s hs)]
    rfl

/-- Go's `insertionSort_func` over the whole list computes the list-level
insertion sort. -/
theorem insertionSortRange_eq_sortDesc (l : List RouteInfo) :
    insertionSortRange l 0 l.length = sortDesc l := by
  cases l with
  | nil => rfl
  | cons r t =>
    rw [insertionSortRange]
    rw [show (r :: t).length - (0 + 1) = t.length from by simp]
    rw [show r :: t = [r] ++ t from rfl]
    rw [show (0 : Nat) + 1 = ([r] : List RouteInfo).length from rfl]
    rw [insertionSortOuter_insert t [r] ⟨by simp, trivial⟩]
    rfl

/-- On ranges of at most 12 elements `sort.Slice` runs its insertion
sort, so over a short whole list it computes the list-level insertion
sort. -/
theorem goSortSlice_le12 (l : List RouteInfo) (h : l.length ≤ 12) :
    goSortSlice l = sortDesc l := by
  rw [goSortSlice, pdqsort]
  rw [show l.length - 0 + 1 = l.length + 1 from by simp]
  rw [pdqsortAux]
  rw [if_pos (by simpa using h)]
  exact insertionSortRange_eq_sortDesc l

/-- Processing one metadata entry never touches the registry maps. -/
theorem processEntry_registry (st : PwState) (e : MetadataEntry) :
    (processEntry st e).1.GlobalNodes = st.GlobalNodes ∧
    (processEntry st e).1.GlobalDevices = st.GlobalDevices := by
  rw [processEntry]
  split
  · exact ⟨rfl, rfl⟩
  · dsimp only
    split
    · exact ⟨rfl, rfl⟩
    · split
      · split
        · exact ⟨rfl, rfl⟩
        · exact ⟨rfl, rfl⟩
      · exact ⟨rfl, rfl⟩

/-- Processing a metadata batch never touches the registry maps. -/
theorem handleDefaultSinkChange_registry (entries : List MetadataEntry)
    (st : PwState) :
    (handleDefaultSinkChange st entries).1.GlobalNodes = st.GlobalNodes ∧
    (handleDefaultSinkChange st entries).1.GlobalDevices = st.GlobalDevices := by
  induction entries generalizing st with
  | nil => exact ⟨rfl, rfl⟩
  | cons e rest ih =>
    rw [handleDefaultSinkChange]
    obtain ⟨hn, hd⟩ := processEntry_registry st e
    obtain ⟨hn', hd'⟩ := ih (processEntry st e).1
    exact ⟨hn'.trans hn, hd'.trans hd⟩

/-- A record that fails to decode leaves the state unchanged and declares
nothing. -/
theorem dispatchOne_bad (st : PwState) (r : RawRecord)
    (h : isBadRecord r = true) : dispatchOne st r = (st, []) := by
  cases r with
  | badBase => rfl
  | nodeRec d => cases d with
    | none => rfl
    | some n => simp [isBadRecord] at h
  | deviceRec d => cases d with
    | none => rfl
    | some dv => simp [isBadRecord] at h
  | metadataRec d => cases d with
    | none => rfl
    | some m => simp [isBadRecord] at h
  | otherType => simp [isBadRecord] at h

/-- Removing a record that fails to decode from anywhere in a batch does
not change the dispatch outcome. -/
theorem dispatcher_skip_bad (pre : List RawRecord) (st : PwState)
    (post : List RawRecord) (b : RawRecord) (h : isBadRecord b = true) :
    dispatcher st (pre ++ b :: post) = dispatcher st (pre ++ post) := by
  induction pre generalizing st with
  | nil =>
    simp only [List.nil_append]
    rw [dispatcher, dispatchOne_bad st b h]
    cases hq : dispatcher st post with
    | mk st' ts => simp
  | cons r rest ih =>
    simp only [List.cons_append]
    rw [dispatcher, dispatcher, ih]

/-! ### Claim theorems -/

/-- C10: for every flat route property list with at least 3 entries, the
derived property map resolves every key exactly as the last-wins view of
the string/string pairs taken at odd positions i paired with position i+1
(non-string elements silently skipped), and position 0 is never
consulted. -/
theorem c10_parse_route_properties :
    (∀ (info : List InfoVal) (k : String), 3 ≤ info.length →
      alistGet (ParseRouteProperties info).Properties k =
        pairsLookup k info.tail) ∧
    (∀ (x y : InfoVal) (rest : List InfoVal),
      ParseRouteProperties (x :: rest) = ParseRouteProperties (y :: rest)) := by
  constructor
  · intro info k h
    rw [ParseRouteProperties, if_neg (by omega)]
    rw [show ({ Properties := parsePairs info.tail [] } :
          RouteData).Properties = parsePairs info.tail [] from rfl]
    rw [parsePairs_get]
    cases hp : pairsLookup k info.tail with
    | none => rfl
    | some v => rfl
  · intro x y rest
    rw [ParseRouteProperties, ParseRouteProperties]
    simp [List.length_cons]

/-- Witness for C10 at a concrete list with a duplicated key: the last
occurrence wins. -/
theorem c10_witness :
    3 ≤ ([.nonstr, .str "a", .str "1", .str "a", .str "2"] :
        List InfoVal).length ∧
    alistGet (ParseRouteProperties
        [.nonstr, .str "a", .str "1", .str "a", .str "2"]).Properties "a" =
      pairsLookup "a"
        ([.nonstr, .str "a", .str "1", .str "a", .str "2"] :
          List InfoVal).tail ∧
    pairsLookup "a"
        ([.nonstr, .str "a", .str "1", .str "a", .str "2"] :
          List InfoVal).tail = some "2" :=
  ⟨by decide, c10_parse_route_properties.1 _ "a" (by decide), by decide⟩

/-- C9: a record that fails to decode (at the base type-tag decode or at
the typed decode) is skipped: the batch outcome equals the outcome without
it and the skipped record changes neither registries nor session state. -/
theorem c9_bad_records_skipped (st : PwState) (pre post : List RawRecord)
    (b : RawRecord) (hb : isBadRecord b = true) :
    dispatcher st (pre ++ b :: post) = dispatcher st (pre ++ post) ∧
    dispatchOne st b = (st, []) :=
  ⟨dispatcher_skip_bad pre st post b hb, dispatchOne_bad st b hb⟩

/-- Witness for C9: a base-decode failure in the middle of the end-to-end
scenario's first two records is skipped. -/
theorem c9_witness :
    isBadRecord RawRecord.badBase = true ∧
    dispatcher initState
        ([RawRecord.nodeRec (some nodeHeadset)] ++ RawRecord.badBase ::
          [RawRecord.deviceRec (some devHeadset)]) =
      dispatcher initState
        ([RawRecord.nodeRec (some nodeHeadset)] ++
          [RawRecord.deviceRec (some devHeadset)]) :=
  ⟨rfl,
   (c9_bad_records_skipped initState [RawRecord.nodeRec (some nodeHeadset)]
     [RawRecord.deviceRec (some devHeadset)] RawRecord.badBase rfl).1⟩

set_option maxRecDepth 100000 in
/-- C5 counterexample: fifty output routes with ascending priorities whose
last two tie at the maximum.  All routes are output-direction, yet the
selection returns the later tied route (`tieRouteB`), not the first one in
input order (`tieRouteA`): the ninther pivot sampling sees a descending
pattern under the comparator, `pdqsort` reverses the whole range (swapping
the tied pair), and its partial-insertion-sort pass accepts the result. -/
theorem c5_counterexample :
    devFifty.Route.filter (fun r => eqFold r.Direction "output") =
      devFifty.Route ∧
    devFifty.Route.length = 50 ∧
    specFirstMax devFifty.Route = some tieRouteA ∧
    GetHighestPriorityOutputRoute devFifty = some tieRouteB ∧
    tieRouteB ≠ tieRouteA ∧
    tieRouteA.Priority = tieRouteB.Priority :=
  ⟨by decide, by decide, by decide, by decide, by decide, by decide⟩

/-- C5 amended: for every device whose output-direction routes number at
most 12 — the regime in which `sort.Slice` runs its insertion sort, which
covers PipeWire devices — the selection is exactly the first route in
input order attaining the maximal priority among the output routes; in
particular it is an output route of maximal priority. -/
theorem c5_route_selection (dev : Device)
    (h : (dev.Route.filter (fun r => eqFold r.Direction "output")).length
      ≤ 12) :
    GetHighestPriorityOutputRoute dev =
      specFirstMax (dev.Route.filter (fun r => eqFold r.Direction "output")) ∧
    ∀ r, GetHighestPriorityOutputRoute dev = some r →
      r ∈ dev.Route.filter (fun r => eqFold r.Direction "output") ∧
      ∀ q ∈ dev.Route.filter (fun r => eqFold r.Direction "output"),
        q.Priority ≤ r.Priority := by
  have heq : GetHighestPriorityOutputRoute dev =
      specFirstMax
        (dev.Route.filter (fun r => eqFold r.Direction "output")) := by
    rw [GetHighestPriorityOutputRoute]
    rw [goSortSlice_le12 _ h]
    exact sortDesc_head _
  exact ⟨heq, fun r hr => specFirstMax_spec _ r (heq ▸ hr)⟩

/-- Witness for C5 amended at the spec's example: priorities [3,7,1], all
output (three routes, within the insertion-sort regime), select the
priority-7 route. -/
theorem c5_witness :
    (devPrio371.Route.filter (fun r => eqFold r.Direction "output")).length
      ≤ 12 ∧
    GetHighestPriorityOutputRoute devPrio371 = some routePrio7 :=
  ⟨by decide,
   ((c5_route_selection devPrio371 (by decide)).1).trans (by decide)⟩

/-- C7: a device without an output-direction route is unclassified for
every keyword set, and so is a device whose selected output route carries
a flat property list of fewer than 3 entries. -/
theorem c7_unclassified (dev : Device) (kws : List String) :
    (dev.Route.filter (fun r => eqFold r.Direction "output") = [] →
      checkDeviceCategory dev kws = false) ∧
    (∀ r, GetHighestPriorityOutputRoute dev = some r → r.Info.length < 3 →
      checkDeviceCategory dev kws = false) := by
  constructor
  · intro h
    have hg : GetHighestPriorityOutputRoute dev = none := by
      rw [GetHighestPriorityOutputRoute]
      rw [h]
      rfl
    rw [checkDeviceCategory, hg]
  · intro r hr hlen
    rw [checkDeviceCategory, hr]
    dsimp only
    rw [ParseRouteProperties, if_pos hlen]
    rfl

/-- Witness for C7: the input-only device and the short-property-list
device are both unclassified. -/
theorem c7_witness :
    checkDeviceCategory devNoOutput publicDevice = false ∧
    checkDeviceCategory devShortInfo privateDevice = false :=
  ⟨(c7_unclassified devNoOutput publicDevice).1 (by decide),
   (c7_unclassified devShortInfo privateDevice).2 routeShortInfo (by decide)
     (by decide)⟩

/-- C3: the device-update transition decision is exactly a predicate of
the pre-event state (default-sink linkage and the previously stored
snapshot for that device id, never the incoming snapshot as its own
baseline: with no prior snapshot nothing is declared), the registry
overwrite happens after the decision, and the metadata detection path
never overwrites either registry map. -/
theorem c3_detection_against_prior_state (st : PwState) (dev : Device) :
    ((onDeviceUpdate st dev).2 ≠ [] ↔
      (GetDeviceIDByNodeName st st.currentDefaultSink = some dev.ID ∧
       ∃ old, alistGet st.GlobalDevices dev.ID = some old ∧
         IsPrivateDevice old = true ∧ IsPublicDevice dev = true)) ∧
    (alistGet st.GlobalDevices dev.ID = none →
      (onDeviceUpdate st dev).2 = []) ∧
    ((onDeviceUpdate st dev).1.GlobalDevices =
      alistSet st.GlobalDevices dev.ID dev) ∧
    (∀ meta : MetadataUpdate,
      (onMetadataUpdate st meta).1.GlobalNodes = st.GlobalNodes ∧
      (onMetadataUpdate st meta).1.GlobalDevices = st.GlobalDevices) := by
  refine ⟨?_, ?_, rfl,
    fun meta => handleDefaultSinkChange_registry meta.Metadata st⟩
  · show handleDefaultRouteChange st dev ≠ [] ↔ _
    rw [handleDefaultRouteChange]
    cases hg : GetDeviceIDByNodeName st st.currentDefaultSink with
    | none =>
      simp only [ne_eq, not_true_eq_false, false_iff, not_and]
      intro hcontra
      exact absurd hcontra (by simp)
    | some cid =>
      dsimp only
      by_cases hid : dev.ID = cid
      · subst hid
        rw [if_neg (by simp)]
        cases ho : alistGet st.GlobalDevices dev.ID with
        | none => simp
        | some old =>
          dsimp only
          by_cases hpp : IsPrivateDevice old && IsPublicDevice dev
          · rw [if_pos hpp]
            have hb : IsPrivateDevice old = true ∧ IsPublicDevice dev = true :=
              by simpa using hpp
            constructor
            · intro _
              exact ⟨rfl, old, rfl, hb.1, hb.2⟩
            · intro _
              simp
          · rw [if_neg hpp]
            simp only [ne_eq, not_true_eq_false, false_iff, not_and]
            intro _
            rintro ⟨o, hoo, hpriv, hpub⟩
            cases hoo
            exact hpp (by simp [hpriv, hpub])
      · rw [if_pos (by simpa using hid)]
        simp only [ne_eq, not_true_eq_false, false_iff, not_and]
        intro hcid
        exact absurd (Option.some.inj hcid) (fun hh => hid hh.symm)
  · show alistGet st.GlobalDevices dev.ID = none →
      handleDefaultRouteChange st dev = []
    intro hnone
    rw [handleDefaultRouteChange]
    cases hg : GetDeviceIDByNodeName st st.currentDefaultSink with
    | none => rfl
    | some cid =>
      dsimp only
      by_cases hid : dev.ID = cid
      · rw [if_neg (by simpa using hid)]
        rw [hnone]
      · rw [if_pos (by simpa using hid)]

/-- Witness for C3 at the pre-switch scenario state and the HDMI device:
the decision reads the stored snapshot for device 2 in the prior state. -/
theorem c3_witness :
    ((onDeviceUpdate stBeforeSwitch devHdmi).2 ≠ [] ↔
      (GetDeviceIDByNodeName stBeforeSwitch
          stBeforeSwitch.currentDefaultSink = some devHdmi.ID ∧
       ∃ old, alistGet stBeforeSwitch.GlobalDevices devHdmi.ID = some old ∧
         IsPrivateDevice old = true ∧ IsPublicDevice devHdmi = true)) ∧
    ((onDeviceUpdate stBeforeSwitch devHdmi).1.GlobalDevices =
      alistSet stBeforeSwitch.GlobalDevices devHdmi.ID devHdmi) :=
  ⟨(c3_detection_against_prior_state stBeforeSwitch devHdmi).1,
   (c3_detection_against_prior_state stBeforeSwitch devHdmi).2.2.1⟩

/-- C4: a `default.audio.sink` entry processed while the recorded default
sink name is empty adopts the extracted name and declares no transition,
whatever the registries contain. -/
theorem c4_first_observation (st : PwState) (e : MetadataEntry)
    (hkey : e.Key = "default.audio.sink")
    (hname : extractNodeName e.Value ≠ "")
    (hsink : st.currentDefaultSink = "") :
    processEntry st e =
      ({ st with currentDefaultSink := extractNodeName e.Value }, []) := by
  rw [processEntry]
  rw [if_neg (fun h => h.1 hkey)]
  dsimp only
  rw [if_neg hname, if_pos hkey, if_pos hsink]

/-- Witness for C4: the first observation of the public HDMI sink is
adopted without a transition even though its device classifies Public. -/
theorem c4_witness :
    IsPublicDevice devHdmi = true ∧
    processEntry
        { GlobalNodes := [(20, nodeHdmi)], GlobalDevices := [(2, devHdmi)],
          currentDefaultSink := "", IsUserOperation := false }
        (sinkEntry "sink.hdmi") =
      ({ GlobalNodes := [(20, nodeHdmi)], GlobalDevices := [(2, devHdmi)],
         currentDefaultSink := "sink.hdmi", IsUserOperation := false }, []) :=
  ⟨by decide,
   (c4_first_observation
      { GlobalNodes := [(20, nodeHdmi)], GlobalDevices := [(2, devHdmi)],
        currentDefaultSink := "", IsUserOperation := false }
      (sinkEntry "sink.hdmi") rfl (by decide) rfl).trans (by decide)⟩

/-- C8 counterexample: replaying an identical Device record is not
transition-free when the device classifies as Private and Public at once;
here the first application declares nothing, the second declares a
route-switch transition. -/
theorem c8_counterexample :
    (onDeviceUpdate stAmb devAmb).2 = [] ∧
    (onDeviceUpdate (onDeviceUpdate stAmb devAmb).1 devAmb).2 =
      [Transition.routeSwitch 1] := by
  constructor
  · decide
  · decide

/-- C8 amended: replaying an identical Node record twice declares nothing,
and replaying an identical Device record twice declares nothing on the
second application provided the device does not classify as both Private
and Public. -/
theorem c8_replay_no_transition (st : PwState) (node : Node) (dev : Device)
    (h : ¬(IsPrivateDevice dev = true ∧ IsPublicDevice dev = true)) :
    (onNodeUpdate (onNodeUpdate st node).1 node).2 = [] ∧
    (onDeviceUpdate (onDeviceUpdate st dev).1 dev).2 = [] := by
  refine ⟨rfl, ?_⟩
  show handleDefaultRouteChange (onDeviceUpdate st dev).1 dev = []
  rw [handleDefaultRouteChange]
  cases hg : GetDeviceIDByNodeName (onDeviceUpdate st dev).1
      (onDeviceUpdate st dev).1.currentDefaultSink with
  | none => rfl
  | some cid =>
    dsimp only
    by_cases hid : dev.ID = cid
    · rw [if_neg (by simpa using hid)]
      have hstored : alistGet (onDeviceUpdate st dev).1.GlobalDevices dev.ID =
          some dev := by
        show alistGet (alistSet st.GlobalDevices dev.ID dev) dev.ID = some dev
        rw [alistGet_set]
        simp
      rw [hstored]
      dsimp only
      rw [if_neg (fun hpp => h (by simpa using hpp))]
    · rw [if_pos (by simpa using hid)]

/-- Witness for C8 amended: replaying the headset node and headset device
of the end-to-end scenario declares nothing the second time. -/
theorem c8_witness :
    (onNodeUpdate (onNodeUpdate stBeforeSwitch nodeHeadset).1
        nodeHeadset).2 = [] ∧
    (onDeviceUpdate (onDeviceUpdate stBeforeSwitch devHeadset).1
        devHeadset).2 = [] :=
  c8_replay_no_transition stBeforeSwitch nodeHeadset devHeadset
    (by decide)

/-- C6 counterexample: a `default.configured.audio.sink` entry whose value
yields no non-empty node name (here an object without a name field) is
skipped by the empty-name guard before the key switch, so processing it
does not set the user-initiated flag and leaves the state untouched —
against the claim's "regardless of the entry's value". -/
theorem c6_counterexample :
    (processEntry initState
        { Subject := 0, Key := "default.configured.audio.sink", Typ := "",
          Value := .objNoName }).1.IsUserOperation = false ∧
    (processEntry initState
        { Subject := 0, Key := "default.configured.audio.sink", Typ := "",
          Value := .objNoName }).1 = initState :=
  ⟨by decide, by decide⟩

/-- C6 amended: a `default.configured.audio.sink` entry whose value yields
a non-empty node name sets the user-initiated flag; the flag then stays
true across entries that are not a non-first `default.audio.sink` change
with a non-empty name, and is reset to false by the next such change after
its decision. -/
theorem c6_flag_one_shot (st : PwState) (e : MetadataEntry)
    (hkey : e.Key = "default.configured.audio.sink")
    (hname : extractNodeName e.Value ≠ "") :
    processEntry st e = ({ st with IsUserOperation := true }, []) ∧
    (∀ e2 : MetadataEntry,
      e2.Key ≠ "default.audio.sink" ∨ extractNodeName e2.Value = "" ∨
        st.currentDefaultSink = "" →
      (processEntry (processEntry st e).1 e2).1.IsUserOperation = true) ∧
    (∀ e2 : MetadataEntry, e2.Key = "default.audio.sink" →
      extractNodeName e2.Value ≠ "" → st.currentDefaultSink ≠ "" →
      (processEntry (processEntry st e).1 e2).1.IsUserOperation = false) := by
  have hst : processEntry st e = ({ st with IsUserOperation := true }, []) := by
    rw [processEntry]
    rw [if_neg (fun hcon => hcon.2 hkey)]
    dsimp only
    rw [if_neg hname]
    rw [if_neg (show ¬(e.Key = "default.audio.sink") from by
      rw [hkey]; decide)]
  refine ⟨hst, ?_, ?_⟩
  · intro e2 h2
    rw [hst]
    dsimp only
    rw [processEntry]
    split
    · rfl
    · dsimp only
      split
      · rfl
      · next hn2 =>
        split
        · next hk2 =>
          split
          · rfl
          · next hs =>
            rcases h2 with hk | hn | hsE
            · exact absurd hk2 hk
            · exact absurd hn hn2
            · exact absurd hsE hs
        · rfl
  · intro e2 hk2 hn2 hs2
    rw [hst]
    dsimp only
    rw [processEntry]
    rw [if_neg (fun hcon => hcon.1 hk2)]
    dsimp only
    rw [if_neg hn2, if_pos hk2]
    rw [if_neg hs2]

/-- Witness for C6 amended, at the pre-switch scenario state: the
configured entry sets the flag and the following sink change resets it. -/
theorem c6_witness :
    (processEntry stBeforeSwitch (configuredEntry "sink.hdmi")).1.IsUserOperation
      = true ∧
    (processEntry
        (processEntry stBeforeSwitch (configuredEntry "sink.hdmi")).1
        (sinkEntry "sink.hdmi")).1.IsUserOperation = false :=
  ⟨by
    rw [(c6_flag_one_shot stBeforeSwitch (configuredEntry "sink.hdmi") rfl
      (by decide)).1],
   (c6_flag_one_shot stBeforeSwitch (configuredEntry "sink.hdmi") rfl
      (by decide)).2.2 (sinkEntry "sink.hdmi") rfl (by decide) (by decide)⟩

/-- C1: at the pre-switch scenario state a `default.configured.audio.sink`
entry sets the user-initiated flag, yet the immediately following
`default.audio.sink` private-to-public change still declares a transition —
the decision at line 283 of the detection revision never reads the flag,
so the claimed "if and only if the user-initiated flag is not set" fails in
the suppression direction; the flag is nevertheless reset afterwards. -/
theorem c1_user_flag_not_consulted :
    (processEntry stBeforeSwitch (configuredEntry "sink.hdmi")).1.IsUserOperation
      = true ∧
    (handleDefaultSinkChange stBeforeSwitch
        [configuredEntry "sink.hdmi", sinkEntry "sink.hdmi"]).2 =
      [Transition.sinkSwitch "sink.headset" "sink.hdmi"] ∧
    (handleDefaultSinkChange stBeforeSwitch
        [configuredEntry "sink.hdmi", sinkEntry "sink.hdmi"]).1.IsUserOperation
      = false :=
  ⟨by decide, by decide, by decide⟩

/-- C2: feeding the six end-to-end scenario records declares exactly one
transition, for the switch away from the headset sink (node 10), and the
modelled orchestrator then issues mute(10,true), the pause broadcast, and
mute(10,false) within the configured deadline. -/
theorem c2_end_to_end_scenario :
    (dispatcher initState scenarioRecords).2 =
      [Transition.sinkSwitch "sink.headset" "sink.hdmi"] ∧
    GetNodeIDByName (dispatcher initState scenarioRecords).1 "sink.headset" =
      some 10 ∧
    mitigate (dispatcher initState scenarioRecords).1
        (Transition.sinkSwitch "sink.headset" "sink.hdmi") =
      [⟨0, .mute 10 true⟩, ⟨0, .pauseBroadcast⟩,
       ⟨graceMillis, .mute 10 false⟩] ∧
    graceMillis ≤ deadlineMillis :=
  ⟨by decide, by decide, by decide, by decide⟩

end PwAutopaused
